import Mathlib

/-!
Verification of the instance-pool / load-balancer core of the repository.

Shallow embedding of:
- `src/api_utils/instance_manager.py` — `LoadBalanceStrategy`, `BrowserInstance`,
  `MultiInstanceManager` (registry as an insertion-ordered map, modelled as a list
  of instances in registration order, mirroring Python dict insertion order);
- `src/api_utils/load_balancer.py` — the `LoadBalancer` facade;
- `src/api_utils/context_init.py` — `initialize_request_context`'s
  instance-selection branch.

External objects (Playwright `Browser` / `Page`) are opaque handles: the browser
handle is a `Nat`, the page an `Option Nat` (Python `Optional[AsyncPage]`, where
`None` is falsy). The event-loop clock is passed in as an explicit `Nat`
timestamp. `random.choice` is modelled by an explicit draw `r : Nat` used as an
index modulo the candidate count.
-/

/-- `LoadBalanceStrategy` enum from instance_manager.py. -/
inductive LoadBalanceStrategy where
  | round_robin
  | random
  | least_connections
  deriving DecidableEq, Repr

/-- `BrowserInstance` dataclass from instance_manager.py. `browser` and `page`
are the externally-owned handles, opaque to this core. -/
structure BrowserInstance where
  id : String
  auth_file : String
  browser : Nat
  page : Option Nat := none
  ws_endpoint : String := ""
  port : Nat := 0
  is_ready : Bool := false
  request_count : Nat := 0
  error_count : Nat := 0
  enabled : Bool := true
  last_used : Nat := 0
  deriving DecidableEq, Repr

/-- `MultiInstanceManager` state: `instances` is the Python dict keyed by id,
kept in insertion (registration) order, plus the strategy tag and the
round-robin cursor `current_index`. -/
structure MultiInstanceManager where
  instances : List BrowserInstance
  strategy : LoadBalanceStrategy
  current_index : Nat
  deriving DecidableEq, Repr

/-- `os.path.basename`: the part of the path after the last slash. -/
def basename (p : String) : String :=
  match (p.splitOn "/").getLast? with
  | some s => s
  | none => p

/-- `add_instance`: dict upsert keyed by `id` — replacing an existing key keeps
its position, a new key is appended. -/
def addInstance (m : MultiInstanceManager) (inst : BrowserInstance) : MultiInstanceManager :=
  if m.instances.any (fun i => i.id = inst.id) then
    { m with instances := m.instances.map (fun i => if i.id = inst.id then inst else i) }
  else
    { m with instances := m.instances ++ [inst] }

/-- `remove_instance`: delete the entry if present, no-op otherwise. -/
def removeInstance (m : MultiInstanceManager) (instId : String) : MultiInstanceManager :=
  { m with instances := m.instances.filter (fun i => i.id ≠ instId) }

/-- `get_enabled_instances`: instances with `enabled and is_ready`, in
registration order. -/
def getEnabledInstances (m : MultiInstanceManager) : List BrowserInstance :=
  m.instances.filter (fun i => i.enabled && i.is_ready)

/-- Python `min(enabled, key=lambda x: x.request_count)`: left fold keeping the
first element realising the minimum key. -/
def minByRequestCount : List BrowserInstance → Option BrowserInstance
  | [] => none
  | x :: xs =>
      some (xs.foldl (fun acc i => if i.request_count < acc.request_count then i else acc) x)

/-- `get_next_instance`: returns the selected instance (or `none` when there is
no candidate) together with the updated manager state. `r` is the random draw
consumed by the `random` strategy. -/
def getNextInstance (m : MultiInstanceManager) (r : Nat) :
    Option BrowserInstance × MultiInstanceManager :=
  let enabled := getEnabledInstances m
  if enabled.isEmpty then (none, m)
  else
    match m.strategy with
    | .round_robin =>
        (enabled.get? (m.current_index % enabled.length),
         { m with current_index := (m.current_index + 1) % enabled.length })
    | .random => (enabled.get? (r % enabled.length), m)
    | .least_connections => (minByRequestCount enabled, m)

/-- `mark_request_start`: increments `request_count` and stamps `last_used`
with the current event-loop time `t`; no-op when the id is not registered. -/
def markRequestStart (m : MultiInstanceManager) (instId : String) (t : Nat) :
    MultiInstanceManager :=
  { m with instances := m.instances.map (fun i =>
      if i.id = instId then { i with request_count := i.request_count + 1, last_used := t } else i) }

/-- `mark_request_error`: increments `error_count`; no-op when the id is not
registered. -/
def markRequestError (m : MultiInstanceManager) (instId : String) : MultiInstanceManager :=
  { m with instances := m.instances.map (fun i =>
      if i.id = instId then { i with error_count := i.error_count + 1 } else i) }

/-- One value of the dict produced by `get_stats`: exactly the seven keys the
comprehension builds, nothing else — in particular no browser or page handle. -/
structure StatsEntry where
  id : String
  auth_file : String
  is_ready : Bool
  enabled : Bool
  request_count : Nat
  error_count : Nat
  port : Nat
  deriving DecidableEq, Repr

/-- `get_stats`: one `(instance_id, entry)` pair per registered instance, in
registration order, with the credential reference masked to its basename. -/
def getStats (m : MultiInstanceManager) : List (String × StatsEntry) :=
  m.instances.map (fun inst =>
    (inst.id,
     { id := inst.id
       auth_file := basename inst.auth_file
       is_ready := inst.is_ready
       enabled := inst.enabled
       request_count := inst.request_count
       error_count := inst.error_count
       port := inst.port }))

/-- `set_strategy`. -/
def setStrategy (m : MultiInstanceManager) (s : LoadBalanceStrategy) : MultiInstanceManager :=
  { m with strategy := s }

/-- `enable_instance`: sets the `enabled` flag; no-op when the id is not
registered. -/
def enableInstance (m : MultiInstanceManager) (instId : String) (b : Bool) :
    MultiInstanceManager :=
  { m with instances := m.instances.map (fun i =>
      if i.id = instId then { i with enabled := b } else i) }

/-- The fields of a stats entry as a function of the instance, for stating what
`get_stats` exposes. -/
def statsEntryOf (inst : BrowserInstance) : StatsEntry :=
  { id := inst.id
    auth_file := basename inst.auth_file
    is_ready := inst.is_ready
    enabled := inst.enabled
    request_count := inst.request_count
    error_count := inst.error_count
    port := inst.port }

/-- `k` consecutive `select()` calls threading the manager state; the random
draw is irrelevant for round robin and least connections and fixed to 0. -/
def selectSeq (m : MultiInstanceManager) : Nat → List (Option BrowserInstance) × MultiInstanceManager
  | 0 => ([], m)
  | Nat.succ k =>
      let p := getNextInstance m 0
      let q := selectSeq p.2 k
      (p.1 :: q.1, q.2)

/-- `LoadBalancer.get_instance` from load_balancer.py: delegates to the pool. -/
def loadBalancerGetInstance (m : MultiInstanceManager) (r : Nat) :
    Option BrowserInstance × MultiInstanceManager :=
  getNextInstance m r

/-- `LoadBalancer.mark_request_start`: delegates by instance id. -/
def loadBalancerMarkRequestStart (m : MultiInstanceManager) (inst : BrowserInstance)
    (t : Nat) : MultiInstanceManager :=
  markRequestStart m inst.id t

/-- The instance-selection branch of `initialize_request_context`
(context_init.py): ask the facade for an instance; when one with a non-null
page is returned use its page and readiness and mark the request started,
otherwise fall back to the process-wide default page/readiness pair. Returns
((page, is_page_ready, markStartCalled), updated manager). -/
def initializeRequestContext (m : MultiInstanceManager) (r : Nat) (t : Nat)
    (defaultPage : Option Nat) (defaultReady : Bool) :
    (Option Nat × Bool × Bool) × MultiInstanceManager :=
  let p := loadBalancerGetInstance m r
  match p.1 with
  | some inst =>
      match inst.page with
      | some pg => ((some pg, inst.is_ready, true), loadBalancerMarkRequestStart p.2 inst t)
      | none => ((defaultPage, defaultReady, false), p.2)
  | none => ((defaultPage, defaultReady, false), p.2)

/-!
Interleaving model of concurrent round-robin `select()` calls, for the
concurrency claim about `async with self.lock`. Each task performs one
`select()` as four micro-steps: acquire the lock, read (observe) the cursor,
write (advance) the cursor to `(observed + 1) % n`, release the lock. The
acquire step is enabled only when the lock is free — this is the embedding of
the `asyncio.Lock` the code holds across the read-advance sequence. `n` is the
(held-constant) candidate count.
-/

/-- A micro-action of one concurrent `select()` call. -/
inductive SelAction where
  | acquire
  | observe
  | advance
  | release
  deriving DecidableEq, Repr

/-- Program counter of one task performing a single `select()`. `didRead v`
records the pre-advance cursor value the task observed. -/
inductive TaskPC where
  | start
  | holding
  | didRead (v : Nat)
  | didWrite
  | finished
  deriving DecidableEq, Repr

/-- Shared state: round-robin cursor, lock owner, and each task's counter. -/
structure LockState where
  cursor : Nat
  lock : Option Nat
  tasks : List TaskPC
  deriving DecidableEq, Repr

/-- One micro-step of task `t`; `none` when the action is not enabled (in
particular `acquire` while another task holds the lock). -/
def stepFn (n : Nat) (s : LockState) (st : Nat × SelAction) : Option LockState :=
  match st.2 with
  | .acquire =>
      match s.lock, s.tasks.get? st.1 with
      | none, some .start =>
          some { s with lock := some st.1, tasks := s.tasks.set st.1 .holding }
      | _, _ => none
  | .observe =>
      match s.lock, s.tasks.get? st.1 with
      | some o, some .holding =>
          if o = st.1 then
            some { s with tasks := s.tasks.set st.1 (.didRead s.cursor) }
          else none
      | _, _ => none
  | .advance =>
      match s.lock, s.tasks.get? st.1 with
      | some o, some (.didRead v) =>
          if o = st.1 then
            some { s with cursor := (v + 1) % n, tasks := s.tasks.set st.1 .didWrite }
          else none
      | _, _ => none
  | .release =>
      match s.lock, s.tasks.get? st.1 with
      | some o, some .didWrite =>
          if o = st.1 then
            some { s with lock := none, tasks := s.tasks.set st.1 .finished }
          else none
      | _, _ => none

/-- Run a schedule (a list of micro-steps chosen by the scheduler); `none` when
some step was not enabled. -/
def runSteps (n : Nat) (s : LockState) : List (Nat × SelAction) → Option LockState
  | [] => some s
  | st :: rest =>
      match stepFn n s st with
      | some s1 => runSteps n s1 rest
      | none => none

/-! ### Helper lemmas -/

theorem getNextInstance_rr (m : MultiInstanceManager) (r : Nat) (a : BrowserInstance)
    (l : List BrowserInstance) (h1 : m.strategy = LoadBalanceStrategy.round_robin)
    (he : getEnabledInstances m = a :: l) :
    getNextInstance m r =
      ((a :: l).get? (m.current_index % (a :: l).length),
       { m with current_index := (m.current_index + 1) % (a :: l).length }) := by
  simp [getNextInstance, he, h1]

theorem getNextInstance_lc (m : MultiInstanceManager) (r : Nat) (a : BrowserInstance)
    (l : List BrowserInstance) (h1 : m.strategy = LoadBalanceStrategy.least_connections)
    (he : getEnabledInstances m = a :: l) :
    getNextInstance m r = (minByRequestCount (a :: l), m) := by
  simp [getNextInstance, he, h1]

theorem map_if_id_eq_self (instId : String) (f : BrowserInstance → BrowserInstance)
    (l : List BrowserInstance) (hl : ∀ inst ∈ l, inst.id ≠ instId) :
    l.map (fun i => if i.id = instId then f i else i) = l := by
  induction l with
  | nil => rfl
  | cons a l ih =>
      simp only [List.map_cons]
      rw [if_neg (hl a (by simp)), ih (fun i hi => hl i (List.mem_cons_of_mem a hi))]

/-! ### Concrete fixtures for evaluating the claims -/

/-- A ready, enabled instance with a usable page handle. -/
def wInst0 : BrowserInstance :=
  { id := "inst0"
    auth_file := "auth/a0.json"
    browser := 0
    page := some 10
    is_ready := true }

/-- A second ready, enabled instance, with one request already counted. -/
def wInst1 : BrowserInstance :=
  { id := "inst1"
    auth_file := "auth/a1.json"
    browser := 1
    page := some 11
    is_ready := true
    request_count := 1 }

/-- A ready instance that has been administratively disabled. -/
def wInstOff : BrowserInstance :=
  { id := "instOff"
    auth_file := "auth/aOff.json"
    browser := 2
    page := some 12
    is_ready := true
    enabled := false }

/-- An enabled instance that is not ready. -/
def wInstNR : BrowserInstance :=
  { id := "instNR"
    auth_file := "auth/aNR.json"
    browser := 3
    page := some 13
    is_ready := false }

/-- A ready, enabled instance whose page handle is null. -/
def wInstNoPage : BrowserInstance :=
  { id := "instNoPage"
    auth_file := "auth/aNP.json"
    browser := 4
    page := none
    is_ready := true }

/-- Pool with one candidate, one disabled and one not-ready instance. -/
def wPoolMix : MultiInstanceManager :=
  { instances := [wInst0, wInstOff, wInstNR]
    strategy := LoadBalanceStrategy.round_robin
    current_index := 0 }

/-- Pool whose only registered instance is disabled: no candidates. -/
def wPoolDisabled : MultiInstanceManager :=
  { instances := [wInstOff]
    strategy := LoadBalanceStrategy.round_robin
    current_index := 0 }

/-- Pool with one disabled instance and one candidate. -/
def wPoolTwo : MultiInstanceManager :=
  { instances := [wInstOff, wInst0]
    strategy := LoadBalanceStrategy.round_robin
    current_index := 0 }

/-- Round-robin pool of two candidates, cursor at 0. -/
def wPoolRR2 : MultiInstanceManager :=
  { instances := [wInst0, wInst1]
    strategy := LoadBalanceStrategy.round_robin
    current_index := 0 }

/-- Round-robin pool of two candidates with a stale cursor value 5. -/
def wPoolRRStale : MultiInstanceManager :=
  { instances := [wInst0, wInst1]
    strategy := LoadBalanceStrategy.round_robin
    current_index := 5 }

/-- Least-connections pool used for the unknown-id calls. -/
def wPoolGhost : MultiInstanceManager :=
  { instances := [wInst0, wInstOff]
    strategy := LoadBalanceStrategy.least_connections
    current_index := 3 }

/-! ### Claim theorems -/

/-- Claim C3: `candidates()` (`get_enabled_instances`) returns exactly the
registered instances with `enabled = true` and `is_ready = true`, as a sublist
of the registry (hence in registration order), and never includes an instance
with either flag false. -/
theorem candidates_exactly_enabled_ready (m : MultiInstanceManager) :
    (∀ inst, inst ∈ getEnabledInstances m ↔
        inst ∈ m.instances ∧ inst.enabled = true ∧ inst.is_ready = true) ∧
    (getEnabledInstances m).Sublist m.instances := by
  constructor
  · intro inst
    simp [getEnabledInstances, List.mem_filter, and_assoc]
  · exact List.filter_sublist _

/-- Claim C3 witness: a concrete pool where one ready instance is disabled and
one enabled instance is not ready. -/
theorem candidates_exactly_enabled_ready_holds :
    (wInst0 ∈ getEnabledInstances wPoolMix ↔
        wInst0 ∈ wPoolMix.instances ∧ wInst0.enabled = true ∧ wInst0.is_ready = true) ∧
    (getEnabledInstances wPoolMix).Sublist wPoolMix.instances :=
  ⟨(candidates_exactly_enabled_ready wPoolMix).1 wInst0,
   (candidates_exactly_enabled_ready wPoolMix).2⟩

/-- Claim C4: `select()` returns the `none` sentinel exactly when the candidate
list is empty — under every strategy — and returns some instance whenever the
candidate list is non-empty. -/
theorem select_none_iff_no_candidates (m : MultiInstanceManager) (r : Nat) :
    (getNextInstance m r).1 = none ↔ getEnabledInstances m = [] := by
  cases he : getEnabledInstances m with
  | nil => simp [getNextInstance, he]
  | cons a l =>
      have hpos : 0 < (a :: l).length := Nat.succ_pos _
      have hne : (getNextInstance m r).1 ≠ none := by
        cases hs : m.strategy with
        | round_robin =>
            rw [getNextInstance_rr m r a l hs he]
            simp only [ne_eq, List.get?_eq_none, not_le]
            exact Nat.mod_lt _ hpos
        | random =>
            have hx : getNextInstance m r = ((a :: l).get? (r % (a :: l).length), m) := by
              simp [getNextInstance, he, hs]
            rw [hx]
            simp only [ne_eq, List.get?_eq_none, not_le]
            exact Nat.mod_lt _ hpos
        | least_connections =>
            rw [getNextInstance_lc m r a l hs he]
            simp [minByRequestCount]
      simp [hne]

/-- Claim C4 witness: on a pool whose sole registered instance is disabled the
selection result is the `none` sentinel, and it is not `none` once a ready
enabled instance exists. -/
theorem select_none_iff_no_candidates_holds :
    (getNextInstance wPoolDisabled 0).1 = none ∧
      ¬ (getNextInstance wPoolTwo 0).1 = none := by
  constructor
  · exact (select_none_iff_no_candidates wPoolDisabled 0).mpr (by decide)
  · intro h
    have hx := (select_none_iff_no_candidates wPoolTwo 0).mp h
    revert hx
    decide

/-- Claim C10: under round robin, for every cursor value (also one at least as
large as the candidate count) and non-empty candidate list, `select()` indexes
modulo the current length: it returns a member of the current candidate list
and the stored cursor afterwards is strictly below that length. -/
theorem roundRobin_mod_in_bounds (m : MultiInstanceManager) (r : Nat)
    (h1 : m.strategy = LoadBalanceStrategy.round_robin)
    (h2 : getEnabledInstances m ≠ []) :
    ∃ inst, (getNextInstance m r).1 = some inst ∧ inst ∈ getEnabledInstances m ∧
      (getNextInstance m r).2.current_index < (getEnabledInstances m).length := by
  cases he : getEnabledInstances m with
  | nil => exact absurd he h2
  | cons a l =>
      have hlt : m.current_index % (a :: l).length < (a :: l).length :=
        Nat.mod_lt _ (Nat.succ_pos _)
      refine ⟨(a :: l).get ⟨m.current_index % (a :: l).length, hlt⟩, ?_, ?_, ?_⟩
      · rw [getNextInstance_rr m r a l h1 he]
        exact List.get?_eq_get hlt
      · exact List.get_mem _ _ hlt
      · rw [getNextInstance_rr m r a l h1 he]
        exact Nat.mod_lt _ (Nat.succ_pos _)

/-- Claim C10 witness: a pool of two candidates with a stale cursor value 5
(≥ length) still selects a member and stores a cursor below the length. -/
theorem roundRobin_mod_in_bounds_holds :
    ∃ inst, (getNextInstance wPoolRRStale 0).1 = some inst ∧
      inst ∈ getEnabledInstances wPoolRRStale ∧
      (getNextInstance wPoolRRStale 0).2.current_index <
        (getEnabledInstances wPoolRRStale).length :=
  roundRobin_mod_in_bounds wPoolRRStale 0 rfl (by decide)

/-- Claim C5: `mark_start`, `mark_error` and `set_enabled` with an id that is
not registered are silent no-ops: the whole manager state is unchanged. -/
theorem unknown_id_noop (m : MultiInstanceManager) (instId : String) (b : Bool) (t : Nat)
    (h : ∀ inst ∈ m.instances, inst.id ≠ instId) :
    markRequestStart m instId t = m ∧ markRequestError m instId = m ∧
      enableInstance m instId b = m := by
  refine ⟨?_, ?_, ?_⟩
  · show { m with instances := m.instances.map _ } = m
    rw [map_if_id_eq_self instId _ m.instances h]
  · show { m with instances := m.instances.map _ } = m
    rw [map_if_id_eq_self instId _ m.instances h]
  · show { m with instances := m.instances.map _ } = m
    rw [map_if_id_eq_self instId _ m.instances h]

/-- Claim C5 witness: calling the three operations with the unregistered id
"ghost" on a concrete two-instance pool leaves the state untouched. -/
theorem unknown_id_noop_holds :
    markRequestStart wPoolGhost "ghost" 42 = wPoolGhost ∧
      markRequestError wPoolGhost "ghost" = wPoolGhost ∧
      enableInstance wPoolGhost "ghost" true = wPoolGhost :=
  unknown_id_noop wPoolGhost "ghost" true 42 (by decide)

/-- Claim C6: `get_stats` yields exactly one entry per registered instance
(independent of flags), each entry being the id paired with id, masked
credential basename, readiness flag, enabled flag, both counters and port; and
an entry is unchanged when the instance's page and browser handles change, so
the raw handles are never exposed. -/
theorem stats_one_entry_per_instance (m : MultiInstanceManager) :
    (getStats m).length = m.instances.length ∧
    (∀ i, (getStats m).get? i =
        (m.instances.get? i).map (fun inst => (inst.id, statsEntryOf inst))) ∧
    (∀ inst pg br,
        statsEntryOf { inst with page := pg, browser := br } = statsEntryOf inst) := by
  refine ⟨by simp [getStats], ?_, ?_⟩
  · intro i
    simp [getStats, List.get?_map, statsEntryOf]
  · intro inst pg br
    rfl

/-- Claim C6 witness: stats of a pool holding an enabled instance, a disabled
instance and a not-ready instance has three entries, the first one exposing
only the masked basename of the credential path. -/
theorem stats_one_entry_per_instance_holds :
    (getStats wPoolMix).length = wPoolMix.instances.length ∧
      (getStats wPoolMix).get? 0 =
        (wPoolMix.instances.get? 0).map (fun inst => (inst.id, statsEntryOf inst)) :=
  ⟨(stats_one_entry_per_instance wPoolMix).1,
   (stats_one_entry_per_instance wPoolMix).2.1 0⟩

/-- `k` successive `mark_request_error` calls for the same id. -/
def markErrorIter (m : MultiInstanceManager) (instId : String) : Nat → MultiInstanceManager
  | 0 => m
  | Nat.succ k => markRequestError (markErrorIter m instId k) instId

/-- Claim C7: `mark_error(id)` on a registered id increments that instance's
`error_count` by exactly one and nothing else: strategy, cursor and pool size
are unchanged, every other instance is untouched, and on the matching instance
only `error_count` moves. Iterating `k` calls adds exactly `k` and still never
disables, evicts, or touches the other fields. -/
theorem markError_increments_only (m : MultiInstanceManager) (instId : String) :
    (markRequestError m instId).strategy = m.strategy ∧
    (markRequestError m instId).current_index = m.current_index ∧
    (markRequestError m instId).instances.length = m.instances.length ∧
    (∀ i inst, m.instances.get? i = some inst →
        (markRequestError m instId).instances.get? i =
          some (if inst.id = instId
                then { inst with error_count := inst.error_count + 1 }
                else inst)) ∧
    (∀ k i inst, m.instances.get? i = some inst → inst.id ≠ instId →
        (markErrorIter m instId k).instances.get? i = some inst) ∧
    (∀ k i inst, m.instances.get? i = some inst → inst.id = instId →
        (markErrorIter m instId k).instances.get? i =
          some { inst with error_count := inst.error_count + k }) := by
  have hstep : ∀ (mm : MultiInstanceManager) i inst, mm.instances.get? i = some inst →
      (markRequestError mm instId).instances.get? i =
        some (if inst.id = instId
              then { inst with error_count := inst.error_count + 1 }
              else inst) := by
    intro mm i inst h
    show (mm.instances.map _).get? i = _
    rw [List.get?_map, h]
    rfl
  refine ⟨rfl, rfl, by simp [markRequestError], hstep m, ?_, ?_⟩
  · intro k i inst h hid
    induction k with
    | zero => exact h
    | succ k ih =>
        have hx := hstep (markErrorIter m instId k) i inst ih
        rw [if_neg hid] at hx
        exact hx
  · intro k i inst h hid
    induction k with
    | zero => exact h
    | succ k ih =>
        have hx := hstep (markErrorIter m instId k) i
          { inst with error_count := inst.error_count + k } ih
        rw [if_pos hid] at hx
        exact hx

/-- Claim C7 witness: two `mark_error` calls on a concrete pool leave the
undisabled target registered and enabled with `error_count` raised by 2, and
the sibling instance untouched. -/
theorem markError_increments_only_holds :
    (markRequestError wPoolRR2 "inst0").instances.length = wPoolRR2.instances.length ∧
    (markErrorIter wPoolRR2 "inst0" 2).instances.get? 0 =
      some { wInst0 with error_count := wInst0.error_count + 2 } ∧
    (markErrorIter wPoolRR2 "inst0" 2).instances.get? 1 = some wInst1 := by
  refine ⟨(markError_increments_only wPoolRR2 "inst0").2.2.1, ?_, ?_⟩
  · exact (markError_increments_only wPoolRR2 "inst0").2.2.2.2.2 2 0 wInst0 rfl rfl
  · exact (markError_increments_only wPoolRR2 "inst0").2.2.2.2.1 2 1 wInst1 rfl (by decide)

/-- Indexed lookup over `range` reproduces the list itself. -/
theorem map_get?_range {α : Type} (l : List α) :
    (List.range l.length).map l.get? = l.map some := by
  induction l with
  | nil => rfl
  | cons a l ih =>
      rw [List.length_cons, List.range_succ_eq_map, List.map_cons, List.map_map,
          List.map_cons]
      refine congrArg (some a :: ·) ?_
      calc (List.range l.length).map ((a :: l).get? ∘ Nat.succ)
          = (List.range l.length).map l.get? := List.map_congr_left (fun i _ => rfl)
        _ = l.map some := ih

/-- Reading a list cyclically (index mod length) over `k` full rounds yields
`k` concatenated copies of the list. -/
theorem range_mul_mod_map {α : Type} (l : List α) (k : Nat) :
    (List.range (k * l.length)).map (fun i => l.get? (i % l.length)) =
      (List.replicate k (l.map some)).flatten := by
  induction k with
  | zero => simp
  | succ k ih =>
      rw [Nat.succ_mul, List.range_add, List.map_append, ih, List.replicate_succ',
          List.flatten_append]
      refine congrArg ((List.replicate k (l.map some)).flatten ++ ·) ?_
      rw [List.map_map]
      have h1 : ∀ i ∈ List.range l.length,
          ((fun i => l.get? (i % l.length)) ∘ (fun x => k * l.length + x)) i = l.get? i := by
        intro i hi
        have hlt : i < l.length := List.mem_range.mp hi
        show l.get? ((k * l.length + i) % l.length) = l.get? i
        rw [Nat.mul_comm k l.length, Nat.mul_add_mod, Nat.mod_eq_of_lt hlt]
      rw [List.map_congr_left h1, map_get?_range]
      simp

/-- Under round robin, `j` consecutive selections read the (held-constant)
candidate list cyclically starting at the current cursor. -/
theorem selectSeq_rr (j : Nat) (m : MultiInstanceManager)
    (h1 : m.strategy = LoadBalanceStrategy.round_robin)
    (h2 : getEnabledInstances m ≠ []) :
    (selectSeq m j).1 = (List.range j).map
      (fun i => (getEnabledInstances m).get?
        ((m.current_index + i) % (getEnabledInstances m).length)) := by
  induction j generalizing m with
  | zero => simp [selectSeq]
  | succ j ih =>
      cases he : getEnabledInstances m with
      | nil => exact absurd he h2
      | cons a l =>
          have hstep := getNextInstance_rr m 0 a l h1 he
          have hm1 : getEnabledInstances
              { m with current_index := (m.current_index + 1) % (a :: l).length } =
                getEnabledInstances m := rfl
          have hih := ih { m with current_index := (m.current_index + 1) % (a :: l).length }
            h1 (by rw [hm1, he]; exact List.cons_ne_nil a l)
          rw [hm1, he] at hih
          show (getNextInstance m 0).1 ::
              (selectSeq (getNextInstance m 0).2 j).1 = _
          rw [hstep]
          simp only at hih ⊢
          rw [hih, List.range_succ_eq_map, List.map_cons, List.map_map]
          refine congrArg₂ (· :: ·) (by rw [Nat.add_zero]) ?_
          refine List.map_congr_left ?_
          intro i _
          show (a :: l).get? (((m.current_index + 1) % (a :: l).length + i) % (a :: l).length)
              = (a :: l).get? ((m.current_index + Nat.succ i) % (a :: l).length)
          rw [Nat.mod_add_mod]
          refine congrArg _ (congrArg (· % (a :: l).length) ?_)
          omega

/-- Claim C1: with the round-robin strategy, the cursor at 0 and every
registered instance enabled and ready (so the candidate set is the whole
registry, held constant), `k * N` consecutive `select()` calls return the
registered list in order, repeated `k` times. -/
theorem roundRobin_cycles (m : MultiInstanceManager) (k : Nat)
    (h1 : m.strategy = LoadBalanceStrategy.round_robin)
    (h0 : m.current_index = 0)
    (h2 : getEnabledInstances m ≠ []) :
    (selectSeq m (k * (getEnabledInstances m).length)).1 =
      (List.replicate k ((getEnabledInstances m).map some)).flatten := by
  rw [selectSeq_rr (k * (getEnabledInstances m).length) m h1 h2]
  rw [← range_mul_mod_map (getEnabledInstances m) k]
  refine List.map_congr_left ?_
  intro i _
  rw [h0, Nat.zero_add]

/-- Claim C1 witness: two fully-ready registered instances, cursor 0, k = 2:
four `select()` calls return inst0, inst1, inst0, inst1. -/
theorem roundRobin_cycles_holds :
    (selectSeq wPoolRR2 (2 * (getEnabledInstances wPoolRR2).length)).1 =
      (List.replicate 2 ((getEnabledInstances wPoolRR2).map some)).flatten :=
  roundRobin_cycles wPoolRR2 2 rfl rfl (by decide)

/-- One step of the Python `min` fold: keep the accumulator unless the next
element has a strictly smaller key. -/
def minRCStep (acc i : BrowserInstance) : BrowserInstance :=
  if i.request_count < acc.request_count then i else acc

theorem minByRequestCount_cons (x : BrowserInstance) (xs : List BrowserInstance) :
    minByRequestCount (x :: xs) = some (xs.foldl minRCStep x) := rfl

theorem minRCStep_le_left (x z : BrowserInstance) :
    (minRCStep x z).request_count ≤ x.request_count := by
  unfold minRCStep
  split
  · omega
  · exact Nat.le_refl _

theorem minRCStep_le_right (x z : BrowserInstance) :
    (minRCStep x z).request_count ≤ z.request_count := by
  unfold minRCStep
  split
  · exact Nat.le_refl _
  · omega

theorem foldl_minRC_mem (xs : List BrowserInstance) (x : BrowserInstance) :
    xs.foldl minRCStep x ∈ x :: xs := by
  induction xs generalizing x with
  | nil => simp [List.foldl]
  | cons y ys ih =>
      rw [List.foldl_cons]
      rcases List.mem_cons.mp (ih (minRCStep x y)) with h | h
      · rw [h]
        unfold minRCStep
        split
        · exact List.mem_cons_of_mem x (List.mem_cons_self y ys)
        · exact List.mem_cons_self x _
      · exact List.mem_cons_of_mem x (List.mem_cons_of_mem y h)

theorem foldl_minRC_le (xs : List BrowserInstance) (x : BrowserInstance) :
    ∀ y ∈ x :: xs, (xs.foldl minRCStep x).request_count ≤ y.request_count := by
  induction xs generalizing x with
  | nil =>
      intro y hy
      rcases List.mem_cons.mp hy with h | h
      · rw [h]
        exact Nat.le_refl _
      · cases h
  | cons z zs ih =>
      intro y hy
      rw [List.foldl_cons]
      have hacc : (zs.foldl minRCStep (minRCStep x z)).request_count ≤
          (minRCStep x z).request_count :=
        ih (minRCStep x z) (minRCStep x z) (List.mem_cons_self _ _)
      rcases List.mem_cons.mp hy with h | h
      · rw [h]
        exact Nat.le_trans hacc (minRCStep_le_left x z)
      · rcases List.mem_cons.mp h with h2 | h2
        · rw [h2]
          exact Nat.le_trans hacc (minRCStep_le_right x z)
        · exact ih (minRCStep x z) y (List.mem_cons_of_mem _ h2)

theorem foldl_minRC_first (xs : List BrowserInstance) (x : BrowserInstance) :
    ∃ i, (x :: xs).get? i = some (xs.foldl minRCStep x) ∧
      ∀ j z, j < i → (x :: xs).get? j = some z →
        (xs.foldl minRCStep x).request_count < z.request_count := by
  induction xs generalizing x with
  | nil =>
      refine ⟨0, rfl, ?_⟩
      intro j z hj _
      exact absurd hj (Nat.not_lt_zero j)
  | cons y ys ih =>
      rw [List.foldl_cons]
      by_cases hy : y.request_count < x.request_count
      · have hstep : minRCStep x y = y := by unfold minRCStep; rw [if_pos hy]
        rw [hstep]
        obtain ⟨i1, hi1, hi2⟩ := ih y
        refine ⟨i1 + 1, ?_, ?_⟩
        · rw [List.get?_cons_succ]
          exact hi1
        · intro j z hj hz
          cases j with
          | zero =>
              rw [List.get?_cons_zero] at hz
              cases hz
              exact Nat.lt_of_le_of_lt (foldl_minRC_le ys y y (List.mem_cons_self y ys)) hy
          | succ j1 =>
              rw [List.get?_cons_succ] at hz
              exact hi2 j1 z (Nat.lt_of_succ_lt_succ hj) hz
      · have hstep : minRCStep x y = x := by unfold minRCStep; rw [if_neg hy]
        rw [hstep]
        obtain ⟨i1, hi1, hi2⟩ := ih x
        cases i1 with
        | zero =>
            rw [List.get?_cons_zero] at hi1
            refine ⟨0, ?_, ?_⟩
            · rw [List.get?_cons_zero, ← hi1]
            · intro j z hj _
              exact absurd hj (Nat.not_lt_zero j)
        | succ j1 =>
            rw [List.get?_cons_succ] at hi1
            have hrx : (ys.foldl minRCStep x).request_count < x.request_count :=
              hi2 0 x (Nat.succ_pos j1) (by rw [List.get?_cons_zero])
            refine ⟨j1 + 2, ?_, ?_⟩
            · rw [List.get?_cons_succ, List.get?_cons_succ]
              exact hi1
            · intro j z hj hz
              rcases j with _ | j2
              · rw [List.get?_cons_zero] at hz
                cases hz
                exact hrx
              · rcases j2 with _ | j3
                · rw [List.get?_cons_succ, List.get?_cons_zero] at hz
                  cases hz
                  exact Nat.lt_of_lt_of_le hrx (Nat.le_of_not_lt hy)
                · rw [List.get?_cons_succ, List.get?_cons_succ] at hz
                  refine hi2 (j3 + 1) z ?_ ?_
                  · omega
                  · rw [List.get?_cons_succ]
                    exact hz

/-- Claim C2: under least connections, `select()` on a non-empty candidate
list returns a candidate of minimal `request_count`, positioned before every
candidate of strictly smaller index (ties broken by earliest position), leaves
the manager state unchanged, and therefore every repeated `select()` without
an intervening `mark_start` returns the same instance. -/
theorem leastConnections_min_first (m : MultiInstanceManager) (r : Nat)
    (h1 : m.strategy = LoadBalanceStrategy.least_connections)
    (h2 : getEnabledInstances m ≠ []) :
    ∃ inst i, (getNextInstance m r).1 = some inst ∧
      (getNextInstance m r).2 = m ∧
      (getEnabledInstances m).get? i = some inst ∧
      (∀ y ∈ getEnabledInstances m, inst.request_count ≤ y.request_count) ∧
      (∀ j z, j < i → (getEnabledInstances m).get? j = some z →
          inst.request_count < z.request_count) ∧
      (∀ s, (getNextInstance m s).1 = some inst) := by
  cases he : getEnabledInstances m with
  | nil => exact absurd he h2
  | cons a l =>
      obtain ⟨i, hi1, hi2⟩ := foldl_minRC_first l a
      refine ⟨l.foldl minRCStep a, i, ?_, ?_, hi1, ?_, hi2, ?_⟩
      · rw [getNextInstance_lc m r a l h1 he]
        rfl
      · rw [getNextInstance_lc m r a l h1 he]
      · intro y hy
        exact foldl_minRC_le l a y hy
      · intro s
        rw [getNextInstance_lc m s a l h1 he]
        rfl

/-- A third ready, enabled instance with no requests yet, to exercise the
least-connections tie-break. -/
def wInst2 : BrowserInstance :=
  { id := "inst2"
    auth_file := "auth/a2.json"
    browser := 5
    page := some 14
    is_ready := true }

/-- Least-connections pool with request counts 1, 0, 0 in registration
order, so two candidates tie on the minimum. -/
def wPoolLC : MultiInstanceManager :=
  { instances := [wInst1, wInst0, wInst2]
    strategy := LoadBalanceStrategy.least_connections
    current_index := 0 }

/-- Claim C2 witness: candidate counts are 1, 0, 0 — the selected instance is
the earliest zero-count candidate, at position 1, and the concrete selection
indeed returns it. -/
theorem leastConnections_min_first_holds :
    (∃ inst i, (getNextInstance wPoolLC 0).1 = some inst ∧
      (getNextInstance wPoolLC 0).2 = wPoolLC ∧
      (getEnabledInstances wPoolLC).get? i = some inst ∧
      (∀ y ∈ getEnabledInstances wPoolLC, inst.request_count ≤ y.request_count) ∧
      (∀ j z, j < i → (getEnabledInstances wPoolLC).get? j = some z →
          inst.request_count < z.request_count) ∧
      (∀ s, (getNextInstance wPoolLC s).1 = some inst)) ∧
    (getNextInstance wPoolLC 0).1 = some wInst0 :=
  ⟨leastConnections_min_first wPoolLC 0 rfl (by decide), by decide⟩

/-- Claim C8: the request context builder uses the facade-selected instance's
page and readiness flag and marks the request started on it exactly when the
facade returns an instance with a non-null page; when the facade returns no
instance, or an instance whose page is null, it uses the process-wide default
page/readiness pair and does not call `mark_start`. -/
theorem contextBuilder_fallback (m : MultiInstanceManager) (r t : Nat)
    (dp : Option Nat) (dr : Bool) :
    (∀ inst pg, (loadBalancerGetInstance m r).1 = some inst → inst.page = some pg →
        initializeRequestContext m r t dp dr =
          ((some pg, inst.is_ready, true),
           markRequestStart (loadBalancerGetInstance m r).2 inst.id t)) ∧
    (∀ inst, (loadBalancerGetInstance m r).1 = some inst → inst.page = none →
        initializeRequestContext m r t dp dr =
          ((dp, dr, false), (loadBalancerGetInstance m r).2)) ∧
    ((loadBalancerGetInstance m r).1 = none →
        initializeRequestContext m r t dp dr =
          ((dp, dr, false), (loadBalancerGetInstance m r).2)) := by
  refine ⟨?_, ?_, ?_⟩
  · intro inst pg h1 h2
    simp only [initializeRequestContext, h1, h2, loadBalancerMarkRequestStart]
  · intro inst h1 h2
    simp only [initializeRequestContext, h1, h2]
  · intro h1
    simp only [initializeRequestContext, h1]

/-- Single-candidate pool whose instance carries a page handle. -/
def wPoolSingle : MultiInstanceManager :=
  { instances := [wInst0]
    strategy := LoadBalanceStrategy.round_robin
    current_index := 0 }

/-- Single-candidate pool whose instance has a null page handle. -/
def wPoolNoPage : MultiInstanceManager :=
  { instances := [wInstNoPage]
    strategy := LoadBalanceStrategy.round_robin
    current_index := 0 }

/-- Claim C8 witness: on a single-candidate pool whose instance has a page the
builder uses that page, that readiness, and marks the start; on a pool whose
only candidate has a null page it falls back to the default pair without
marking. -/
theorem contextBuilder_fallback_holds :
    initializeRequestContext wPoolSingle 0 7 (some 99) false =
      ((some 10, true, true),
       markRequestStart (loadBalancerGetInstance wPoolSingle 0).2 "inst0" 7) ∧
    initializeRequestContext wPoolNoPage 0 7 (some 99) false =
      ((some 99, false, false), (loadBalancerGetInstance wPoolNoPage 0).2) := by
  constructor
  · exact (contextBuilder_fallback wPoolSingle 0 7 (some 99) false).1 wInst0 10
      (by decide) rfl
  · exact (contextBuilder_fallback wPoolNoPage 0 7 (some 99) false).2.1 wInstNoPage
      (by decide) rfl

theorem observe_step_post (n : Nat) (s s1 : LockState) (t : Nat)
    (hs : stepFn n s (t, SelAction.observe) = some s1) :
    s1.lock = some t ∧ s1.tasks.get? t = some (TaskPC.didRead s.cursor) := by
  cases hlk : s.lock with
  | none => simp [stepFn, hlk] at hs
  | some o =>
      cases htk : s.tasks[t]? with
      | none => simp [stepFn, hlk, htk] at hs
      | some pc =>
          cases pc with
          | start => simp [stepFn, hlk, htk] at hs
          | didRead v2 => simp [stepFn, hlk, htk] at hs
          | didWrite => simp [stepFn, hlk, htk] at hs
          | finished => simp [stepFn, hlk, htk] at hs
          | holding =>
              simp only [stepFn, List.get?_eq_getElem?, hlk, htk] at hs
              split at hs
              · rename_i hot
                injection hs with hs1
                subst hs1
                have hlen : t < s.tasks.length := by
                  rcases List.getElem?_eq_some.mp htk with ⟨h5, _⟩
                  exact h5
                constructor
                · show some o = some t
                  rw [hot]
                · show (s.tasks.set t (TaskPC.didRead s.cursor)).get? t = _
                  rw [List.get?_eq_getElem?]
                  exact List.getElem?_set_eq_of_lt _ hlen
              · cases hs

theorem step_from_didRead (n : Nat) (s : LockState) (t v : Nat)
    (st : Nat × SelAction) (s2 : LockState)
    (hl : s.lock = some t) (ht : s.tasks.get? t = some (TaskPC.didRead v))
    (hs : stepFn n s st = some s2) :
    st = (t, SelAction.advance) := by
  obtain ⟨u, a⟩ := st
  rw [List.get?_eq_getElem?] at ht
  cases a with
  | acquire => simp [stepFn, hl] at hs
  | observe =>
      cases htk : s.tasks[u]? with
      | none => simp [stepFn, hl, htk] at hs
      | some pc =>
          cases pc with
          | start => simp [stepFn, hl, htk] at hs
          | didRead v2 => simp [stepFn, hl, htk] at hs
          | didWrite => simp [stepFn, hl, htk] at hs
          | finished => simp [stepFn, hl, htk] at hs
          | holding =>
              simp only [stepFn, List.get?_eq_getElem?, hl, htk] at hs
              split at hs
              · rename_i hot
                rw [← hot] at htk
                rw [ht] at htk
                simp at htk
              · cases hs
  | advance =>
      cases htk : s.tasks[u]? with
      | none => simp [stepFn, hl, htk] at hs
      | some pc =>
          cases pc with
          | start => simp [stepFn, hl, htk] at hs
          | holding => simp [stepFn, hl, htk] at hs
          | didWrite => simp [stepFn, hl, htk] at hs
          | finished => simp [stepFn, hl, htk] at hs
          | didRead v2 =>
              simp only [stepFn, List.get?_eq_getElem?, hl, htk] at hs
              split at hs
              · rename_i hot
                rw [← hot]
              · cases hs
  | release =>
      cases htk : s.tasks[u]? with
      | none => simp [stepFn, hl, htk] at hs
      | some pc =>
          cases pc with
          | start => simp [stepFn, hl, htk] at hs
          | holding => simp [stepFn, hl, htk] at hs
          | didRead v2 => simp [stepFn, hl, htk] at hs
          | finished => simp [stepFn, hl, htk] at hs
          | didWrite =>
              simp only [stepFn, List.get?_eq_getElem?, hl, htk] at hs
              split at hs
              · rename_i hot
                rw [← hot] at htk
                rw [ht] at htk
                simp at htk
              · cases hs

/-- Claim C9: in the interleaving model of concurrent round-robin `select()`
calls, where the code's lock guards the observe-advance critical section, any
two cursor observations in a valid schedule are separated by a cursor advance:
no two calls can observe (and then advance) the same pre-advance cursor
state — concurrent selection is linearizable. -/
theorem select_lock_linearizable (n : Nat) (s0 sF : LockState)
    (tr : List (Nat × SelAction)) (i j t1 t2 : Nat)
    (hrun : runSteps n s0 tr = some sF) (hij : i < j)
    (hi : tr.get? i = some (t1, SelAction.observe))
    (hj : tr.get? j = some (t2, SelAction.observe)) :
    ∃ k t3, i < k ∧ k < j ∧ tr.get? k = some (t3, SelAction.advance) := by
  induction tr generalizing s0 i j with
  | nil => cases hi
  | cons st rest ih =>
      cases hstep : stepFn n s0 st with
      | none => simp [runSteps, hstep] at hrun
      | some s1 =>
          simp only [runSteps, hstep] at hrun
          cases i with
          | zero =>
              rw [List.get?_cons_zero] at hi
              injection hi with hi2
              subst hi2
              obtain ⟨hl1, ht1⟩ := observe_step_post n s0 s1 t1 hstep
              cases j with
              | zero => omega
              | succ j1 =>
                  rw [List.get?_cons_succ] at hj
                  cases rest with
                  | nil => cases hj
                  | cons st2 rest2 =>
                      cases hstep2 : stepFn n s1 st2 with
                      | none => simp [runSteps, hstep2] at hrun
                      | some s2 =>
                          have hadv :=
                            step_from_didRead n s1 t1 s0.cursor st2 s2 hl1 ht1 hstep2
                          cases j1 with
                          | zero =>
                              rw [List.get?_cons_zero, hadv] at hj
                              simp at hj
                          | succ j2 =>
                              refine ⟨1, t1, Nat.zero_lt_one, by omega, ?_⟩
                              rw [List.get?_cons_succ, List.get?_cons_zero, hadv]
          | succ i1 =>
              cases j with
              | zero => omega
              | succ j1 =>
                  rw [List.get?_cons_succ] at hi hj
                  obtain ⟨k, t3, hk1, hk2, hk3⟩ :=
                    ih s1 i1 j1 hrun (by omega) hi hj
                  refine ⟨k + 1, t3, by omega, by omega, ?_⟩
                  rw [List.get?_cons_succ]
                  exact hk3

/-- Initial shared state for the concrete two-task schedule. -/
def wStart : LockState :=
  { cursor := 0
    lock := none
    tasks := [TaskPC.start, TaskPC.start] }

/-- Final shared state reached by the concrete schedule. -/
def wFinal : LockState :=
  { cursor := 1
    lock := some 1
    tasks := [TaskPC.finished, TaskPC.didRead 1] }

/-- A serialized schedule: task 0 runs its whole critical section, then task 1
acquires the freed lock and observes. -/
def wSchedule : List (Nat × SelAction) :=
  [(0, SelAction.acquire), (0, SelAction.observe), (0, SelAction.advance), (0, SelAction.release), (1, SelAction.acquire), (1, SelAction.observe)]

/-- Claim C9 witness: a concrete serialized schedule of two `select()` tasks
over two candidates; between the two observations (positions 1 and 5) an
advance occurs. -/
theorem select_lock_linearizable_holds :
    ∃ k t3, 1 < k ∧ k < 5 ∧
      wSchedule.get? k = some (t3, SelAction.advance) :=
  select_lock_linearizable 2 wStart wFinal wSchedule 1 5 0 1
    (by decide) (by omega) (by decide) (by decide)
